import Mathlib

/-!
# mangarock: a client binding for the MangaRock web API

A shallow embedding of `mangarock.go`.

* Go slices are lists, Go `int` is `Int` (no arithmetic is done on it), Go `string` is `String`.
* A Go `error` is represented by its message; `errors.Wrap err msg` has message `msg: err`.
* A call either returns a value, returns a non-nil `error`, or panics (`Fault`).
* The packages `net/http` and `encoding/json` are not part of the repository: the HTTP client
  (`HTTPClient.Do`), request construction and the JSON decoders are parameters (`Env`).
  The reply of the HTTP client may depend on every request sent before, so each operation
  threads the list of requests sent so far (explicit state passing).
* A decoded Go map is a list of entries with pairwise distinct keys; the order of the list is
  the order in which a `range` over the map visits the entries.
-/

namespace Mangarock

/-! ## Outcomes of a call -/

/-- The two ways in which a call does not return a value. -/
inductive Fault where
  /-- A non-nil `error` was returned; the argument is `err.Error()`. -/
  | error (msg : String)
  /-- A run-time panic unwinds the stack; the argument is the panic message. -/
  | panic (msg : String)
  deriving DecidableEq, Repr

/-- The function `errors.Wrap(err, msg)`: only reached with an `error` in hand, a panic
passes through the `if err != nil` of a caller untouched. -/
def Fault.Wrap (f : Fault) (msg : String) : Fault :=
  match f with
  | .error e => .error (msg ++ ": " ++ e)
  | .panic p => .panic p

/-- The function `errors.Wrap` on a library error message. -/
def Wrap (e : String) (msg : String) : Fault := .error (msg ++ ": " ++ e)

/-! ## Data model -/

/-- The type `json.RawMessage`. -/
abbrev RawMessage := String

/-- The type `time.Time`, kept as an instant. -/
structure Time where
  unixNano : Int
  deriving DecidableEq, Repr

structure response where
  Code : Int
  Data : RawMessage
  deriving DecidableEq, Repr

structure Chapter where
  ID : String
  Name : String
  Order : Int
  Pages : List String
  deriving DecidableEq, Repr

structure Category where
  ID : String
  Name : String
  deriving DecidableEq, Repr

structure Author where
  ID : String
  Name : String
  Thumbnail : String
  Role : String
  deriving DecidableEq, Repr

structure Manga where
  ID : String
  Name : String
  Author : Mangarock.Author
  Authors : List Mangarock.Author
  AuthorIDs : List String
  Genres : List String
  Rank : Int
  UpdatedChapters : Int
  NewChapters : List Chapter
  Completed : Bool
  Thumbnail : String
  Updated : Time
  deriving DecidableEq, Repr

structure MangaSingle extends Manga where
  Description : String
  Chapters : List Chapter
  Categories : List Category
  Cover : String
  Artworks : List String
  Aliases : List String
  deriving DecidableEq, Repr

/-- The zero value `Author{}`. -/
def Author.zero : Author := ⟨"", "", "", ""⟩

/-- The anonymous struct with one field `ID` decoded in `Author`. -/
structure IDStruct where
  ID : String
  deriving DecidableEq, Repr

/-! ## Go maps -/

/-- A decoded Go map with string keys: its entries in `range` order, keys pairwise distinct. -/
structure GoMap (α : Type) where
  entries : List (String × α)
  nodup : (entries.map Prod.fst).Nodup

/-- The comma-ok lookup `v, ok := m[k]`. -/
def GoMap.get? {α : Type} (m : GoMap α) (k : String) : Option α :=
  (m.entries.find? (fun e => e.1 = k)).map Prod.snd

/-- A map built locally by assignments and only ever indexed: a partial function. -/
abbrev IndexMap (α : Type) := String → Option α

/-- The literal `map[string]Author{}`. -/
def IndexMap.empty {α : Type} : IndexMap α := fun _ => none

/-- The assignment `m[k] = v`. -/
def IndexMap.set {α : Type} (m : IndexMap α) (k : String) (v : α) : IndexMap α :=
  fun k' => if k' = k then some v else m k'

/-- The plain index expression `m[k]` on a map of authors: the zero value when `k` is absent. -/
def IndexMap.index (m : IndexMap Author) (k : String) : Author :=
  (m k).getD Author.zero

/-! ## Transport -/

/-- The type `url.Values`; `nil` is the empty list. -/
abbrev Values := List (String × List String)

/-- The values passed as `body interface{}` to `post`. -/
inductive Body where
  /-- The value `nil`. -/
  | null
  /-- A slice of ids; the nil slice and the empty slice are both the empty list. -/
  | ids (ids : List String)
  /-- The search body with its fields `Type` and `Keywords`. -/
  | search (type : String) (keywords : String)
  deriving DecidableEq, Repr

/-- A request as handed to `c.client.Do`. -/
structure Request where
  Method : String
  URL : String
  Query : Values
  Body : Option Body
  deriving DecidableEq, Repr

/-- The requests sent so far, oldest first. -/
abbrev Log := List Request

/-- The type `http.Client`: `Do log req` is the reply to `req` after the requests of `log`,
either a transport error or the response body. -/
structure HTTPClient where
  Do : Log → Request → Except String String

structure Client where
  base : String
  client : HTTPClient

/-- The library functions the client uses: `http.NewRequest` (which fails on a URL that does
not parse) and the JSON decoders for each target type. -/
structure Env where
  NewRequest : String → String → Except String Unit
  DecodeResponse : String → Except String response
  UnmarshalMangas : RawMessage → Except String (List Manga)
  UnmarshalIDs : RawMessage → Except String (List String)
  UnmarshalMangaMap : RawMessage → Except String (GoMap Manga)
  UnmarshalAuthorMap : RawMessage → Except String (GoMap Author)
  UnmarshalMangaSingle : RawMessage → Except String MangaSingle
  UnmarshalPages : RawMessage → Except String (List String)
  UnmarshalIDStructs : RawMessage → Except String (List IDStruct)

/-- The result of an operation together with the requests sent up to its end. -/
abbrev Outcome (α : Type) := Except Fault α × Log

/-- The method `get`: sends a HTTP GET request. -/
def Client.get (env : Env) (c : Client) (url : String) (query : Values) (log : Log) :
    Outcome RawMessage :=
  match env.NewRequest "GET" url with
  | .error e => (.error (Wrap e "could not create get request"), log)
  | .ok _ =>
    let req : Request := ⟨"GET", url, query, none⟩
    match c.client.Do log req with
    | .error e => (.error (Wrap e ("cound not get " ++ url)), log ++ [req])
    | .ok body =>
      match env.DecodeResponse body with
      | .error e => (.error (Wrap e "could not decode response"), log ++ [req])
      | .ok resp =>
        if resp.Code ≠ 0 then
          (.error (.error ("get response code " ++ toString resp.Code)), log ++ [req])
        else (.ok resp.Data, log ++ [req])

/-- The method `post`: sends a HTTP POST request whose body is the JSON encoding of `body`. -/
def Client.post (env : Env) (c : Client) (url : String) (body : Body) (log : Log) :
    Outcome RawMessage :=
  match env.NewRequest "POST" url with
  | .error e => (.error (Wrap e "could not create post request"), log)
  | .ok _ =>
    let req : Request := ⟨"POST", url, [], some body⟩
    match c.client.Do log req with
    | .error e => (.error (Wrap e ("cound not post to " ++ url)), log ++ [req])
    | .ok rbody =>
      match env.DecodeResponse rbody with
      | .error e => (.error (Wrap e "could not decode response"), log ++ [req])
      | .ok resp =>
        if resp.Code ≠ 0 then
          (.error (.error ("get response code " ++ toString resp.Code)), log ++ [req])
        else (.ok resp.Data, log ++ [req])

/-! ## Entity joiner -/

/-- The loop of `mangasByIDs`: walks `ids` in order and appends the record of each id that
the map holds. -/
def collectMangas (mangaMap : GoMap Manga) (ids : List String) : List Manga :=
  ids.foldl
    (fun mangas id =>
      match mangaMap.get? id with
      | some manga => mangas ++ [manga]
      | none => mangas)
    []

/-- The method `mangasByIDs`: returns a list of mangas based on IDs. -/
def Client.mangasByIDs (env : Env) (c : Client) (ids : List String) (log : Log) :
    Outcome (List Manga) :=
  match c.post env "https://api.mangarockhd.com/meta" (.ids ids) log with
  | (.error f, log1) => (.error (f.Wrap "could not get meta data by manga ids"), log1)
  | (.ok res, log1) =>
    match env.UnmarshalMangaMap res with
    | .error e => (.error (Wrap e "could not unmarshal mangas by ids"), log1)
    | .ok mangaMap => (.ok (collectMangas mangaMap ids), log1)

/-- The loop of `authorsByIDs`: ranges over the map and appends every value. -/
def collectAuthors (authorMap : GoMap Author) : List Author :=
  authorMap.entries.foldl (fun authors e => authors ++ [e.2]) []

/-- The method `authorsByIDs`: returns a slice of authors by their IDs. -/
def Client.authorsByIDs (env : Env) (c : Client) (ids : List String) (log : Log) :
    Outcome (List Author) :=
  match c.post env "https://api.mangarockhd.com/meta" (.ids ids) log with
  | (.error f, log1) => (.error (f.Wrap "could not get meta data by author ids"), log1)
  | (.ok res, log1) =>
    match env.UnmarshalAuthorMap res with
    | .error e => (.error (Wrap e "could not unmarshal authors by ids"), log1)
    | .ok authorMap => (.ok (collectAuthors authorMap), log1)

/-- The first loop of `addAuthors`: the author IDs of all mangas, concatenated. -/
def authorIDs (mangas : List Manga) : List String :=
  mangas.foldl (fun ids manga => ids ++ manga.AuthorIDs) []

/-- The second loop of `addAuthors`: `authorMap[author.ID] = author` for each author. -/
def buildAuthorMap (authors : List Author) : IndexMap Author :=
  authors.foldl (fun authorMap author => authorMap.set author.ID author) IndexMap.empty

/-- The body of the third loop of `addAuthors` for one manga: appends `authorMap[id]` for each
of its author IDs and, unless the author list is empty, sets `Author` to its first element.
Slices are values here: the appends of one manga are not seen through another manga. Two
mangas of the slice share a backing array only when they are copies of one map entry, and
then they append the same authors. -/
def joinAuthors (authorMap : IndexMap Author) (manga : Manga) : Manga :=
  let authors := manga.AuthorIDs.foldl (fun authors id => authors ++ [authorMap.index id])
    manga.Authors
  match authors with
  | [] => { manga with Authors := authors }
  | first :: _ => { manga with Authors := authors, Author := first }

/-- The method `addAuthors`: adds authors to mangas based on their IDs. -/
def Client.addAuthors (env : Env) (c : Client) (mangas : List Manga) (log : Log) :
    Outcome (List Manga) :=
  match c.authorsByIDs env (authorIDs mangas) log with
  | (.error f, log1) => (.error (f.Wrap "could not get authors by ids"), log1)
  | (.ok authors, log1) => (.ok (mangas.map (joinAuthors (buildAuthorMap authors))), log1)

/-! ## Client facade -/

/-- The method `Latest`: returns the latest mangas; `page` is not used. -/
def Client.Latest (env : Env) (c : Client) (_page : Int) (log : Log) :
    Outcome (List Mangarock.Manga) :=
  match c.get env (c.base ++ "/mrs_latest") [] log with
  | (.error f, log1) => (.error f, log1)
  | (.ok res, log1) =>
    match env.UnmarshalMangas res with
    | .error e => (.error (Wrap e "could not unmarshal latest mangas"), log1)
    | .ok mangas =>
      let ids := mangas.map (fun manga => manga.ID)
      match c.mangasByIDs env ids log1 with
      | (.error f, log2) => (.error (f.Wrap "could not get latest mangas by ids"), log2)
      | (.ok mangas, log2) => c.addAuthors env mangas log2

/-- The method `Search`: searches for mangas. -/
def Client.Search (env : Env) (c : Client) (query : String) (log : Log) :
    Outcome (List Mangarock.Manga) :=
  match c.post env (c.base ++ "/mrs_search") (.search "series" query) log with
  | (.error f, log1) => (.error (f.Wrap "could not execute search"), log1)
  | (.ok res, log1) =>
    match env.UnmarshalIDs res with
    | .error e => (.error (Wrap e "could not unmarshal manga IDs"), log1)
    | .ok ids =>
      match c.mangasByIDs env ids log1 with
      | (.error f, log2) => (.error (f.Wrap "could not get mangas by ids"), log2)
      | (.ok mangas, log2) => c.addAuthors env mangas log2

/-- The method `Manga`: returns a single manga. The index expression `manga.Authors[0]`
panics on an empty slice. -/
def Client.Manga (env : Env) (c : Client) (id : String) (log : Log) :
    Outcome MangaSingle :=
  match c.post env (c.base ++ "/info?oid=" ++ id) .null log with
  | (.error f, log1) => (.error f, log1)
  | (.ok res, log1) =>
    match env.UnmarshalMangaSingle res with
    | .error e => (.error (Wrap e "could not unmarshal manga"), log1)
    | .ok manga =>
      match manga.Authors with
      | [] => (.error (.panic "runtime error: index out of range [0] with length 0"), log1)
      | first :: _ => (.ok { manga with Author := first }, log1)

/-- The method `Mangas`: returns a slice of mangas. -/
def Client.Mangas (env : Env) (c : Client) (ids : List String) (log : Log) :
    Outcome (List Mangarock.Manga) :=
  match c.mangasByIDs env ids log with
  | (.error f, log1) => (.error (f.Wrap "could not get authors mangas"), log1)
  | (.ok mangas, log1) => (.ok mangas, log1)

/-- The loop of `Chapter`: the first chapter whose id is `cid`, with `pages` attached. -/
def scanChapters (cid : String) (pages : List String) :
    List Mangarock.Chapter → Except Fault Mangarock.Chapter
  | [] => .error (.error "chapter not found")
  | chapter :: rest =>
    if chapter.ID ≠ cid then scanChapters cid pages rest
    else .ok { chapter with Pages := pages }

/-- The method `Chapter`: returns a chapter containing its images. -/
def Client.Chapter (env : Env) (c : Client) (id cid : String) (log : Log) :
    Outcome Mangarock.Chapter :=
  match c.Manga env id log with
  | (.error f, log1) => (.error (f.Wrap "could not get manga"), log1)
  | (.ok manga, log1) =>
    match c.post env (c.base ++ "/pages?oid=" ++ cid) .null log1 with
    | (.error f, log2) => (.error (f.Wrap "could not get pages"), log2)
    | (.ok res, log2) =>
      match env.UnmarshalPages res with
      | .error e => (.error (Wrap e "could not unmarhal pages"), log2)
      | .ok pages => (scanChapters cid pages manga.Chapters, log2)

/-- The method `Author`: returns an author and their mangas. -/
def Client.Author (env : Env) (c : Client) (id : String) (log : Log) :
    Outcome (Mangarock.Author × List Mangarock.Manga) :=
  match c.authorsByIDs env [id] log with
  | (.error f, log1) => (.error (f.Wrap "could not get authors meta data"), log1)
  | (.ok authors, log1) =>
    match authors with
    | [] => (.error (.error ("author with id " ++ id ++ " not found")), log1)
    | first :: _ =>
      match c.get env (c.base ++ "/mrs_serie_related_author") [("oid", [id])] log1 with
      | (.error f, log2) => (.error (f.Wrap "could not get authors mangas"), log2)
      | (.ok res, log2) =>
        match env.UnmarshalIDStructs res with
        | .error e => (.error (Wrap e "could not unmarshal authors meta data"), log2)
        | .ok mangaIDStructs =>
          let mangaIDs := mangaIDStructs.foldl (fun mangaIDs manga => mangaIDs ++ [manga.ID]) []
          match c.mangasByIDs env mangaIDs log2 with
          | (.error f, log3) => (.error (f.Wrap "could not get authors mangas"), log3)
          | (.ok mangas, log3) =>
            (.ok (first, mangas.map (fun manga => { manga with Author := first })), log3)

/-! ## Closed forms used in the statements -/

/-- The author list that `addAuthors` leaves in a manga: the authors it had, followed by
`authorMap[id]` for each of its author IDs in order. -/
def joinedAuthors (authorMap : IndexMap Author) (manga : Manga) : List Author :=
  manga.Authors ++ manga.AuthorIDs.map authorMap.index

/-! ## Fixtures: concrete servers and decoders -/

/-- The zero value `Manga{}`. -/
def Manga.zero : Manga :=
  { ID := "", Name := "", Author := Author.zero, Authors := [], AuthorIDs := [], Genres := [],
    Rank := 0, UpdatedChapters := 0, NewChapters := [], Completed := false, Thumbnail := "",
    Updated := ⟨0⟩ }

/-- A decoder environment in which every decoder rejects its input; fixtures override the
decoders they need. -/
def Env.failing : Env :=
  { NewRequest := fun _ _ => .ok (),
    DecodeResponse := fun _ => .error "unexpected end of JSON input",
    UnmarshalMangas := fun _ => .error "unexpected end of JSON input",
    UnmarshalIDs := fun _ => .error "unexpected end of JSON input",
    UnmarshalMangaMap := fun _ => .error "unexpected end of JSON input",
    UnmarshalAuthorMap := fun _ => .error "unexpected end of JSON input",
    UnmarshalMangaSingle := fun _ => .error "unexpected end of JSON input",
    UnmarshalPages := fun _ => .error "unexpected end of JSON input",
    UnmarshalIDStructs := fun _ => .error "unexpected end of JSON input" }

/-- A client whose server answers every request with the same body. -/
def Client.constant (body : String) : Client :=
  { base := "https://api.mangarockhd.com/query/web401", client := ⟨fun _ _ => .ok body⟩ }

/-- An envelope decoder that reads the body `"ok"` as `{code: 0, data: "payload"}` and every
other body as `{code: 7, data: "payload"}`. -/
def envelopeEnv : Env :=
  { Env.failing with
    DecodeResponse := fun body => if body = "ok" then .ok ⟨0, "payload"⟩ else .ok ⟨7, "payload"⟩ }

/-- The envelope decoder of `envelopeEnv` where only GET requests can be created. -/
def getOnlyEnv : Env :=
  { envelopeEnv with
    NewRequest := fun method _ =>
      if method = "GET" then .ok () else .error "net/http: invalid method" }

/-- The envelope decoder of `envelopeEnv` where only POST requests can be created. -/
def postOnlyEnv : Env :=
  { envelopeEnv with
    NewRequest := fun method _ =>
      if method = "POST" then .ok () else .error "net/http: invalid method" }

/-- An envelope decoder that accepts every body as `{code: 0, data: body}`. -/
def Env.passing : Env :=
  { Env.failing with DecodeResponse := fun body => .ok ⟨0, body⟩ }

/-- A manga record with the given id and author ids, every other field zero. -/
def Manga.stub (id : String) (authorIDs : List String) : Manga :=
  { Manga.zero with ID := id, AuthorIDs := authorIDs }

/-- An author record with the given id and name. -/
def Author.stub (id name : String) : Author := ⟨id, name, "", ""⟩

/-- A meta endpoint that keys each manga by its own id. -/
def keyedEnv : Env :=
  { Env.passing with
    UnmarshalMangaMap := fun _ =>
      .ok ⟨[("a", Manga.stub "a" []), ("c", Manga.stub "c" [])], by decide⟩ }

/-- A meta endpoint that files the manga with id `"b"` under the key `"a"`. -/
def misfiledEnv : Env :=
  { Env.passing with
    UnmarshalMangaMap := fun _ => .ok ⟨[("a", Manga.stub "b" [])], by decide⟩ }

/-- A meta endpoint that knows no author at all; the related-series list is empty. -/
def noAuthorEnv : Env :=
  { Env.passing with
    UnmarshalAuthorMap := fun _ => .ok ⟨[], by decide⟩,
    UnmarshalMangaMap := fun _ => .ok ⟨[], by decide⟩,
    UnmarshalIDStructs := fun _ => .ok [] }

/-- A meta endpoint that answers every author lookup with the author `"other"`; the
related-series list is empty. -/
def otherAuthorEnv : Env :=
  { Env.passing with
    UnmarshalAuthorMap := fun _ => .ok ⟨[("other", Author.stub "other" "Other")], by decide⟩,
    UnmarshalMangaMap := fun _ => .ok ⟨[], by decide⟩,
    UnmarshalIDStructs := fun _ => .ok [] }

/-- The chapter list of the fixture manga; the id `mrs-chapter-100177864` occurs twice. -/
def snowChapters : List Chapter :=
  [⟨"mrs-chapter-100177860", "Chapter 0", 0, []⟩,
   ⟨"mrs-chapter-100177864", "Chapter 1: Snow", 1, []⟩,
   ⟨"mrs-chapter-100177864", "Chapter 1: Snow (v2)", 2, []⟩]

/-- The single-manga record of the fixture, with the given decoded `Authors`. -/
def snowManga (authors : List Author) : MangaSingle :=
  { toManga := { Manga.stub "mrs-serie-100177863" [] with
      Name := "Fushigi Neko no Kyuu-chan", Authors := authors },
    Description := "", Chapters := snowChapters, Categories := [], Cover := "",
    Artworks := [], Aliases := [] }

/-- An info endpoint that returns `snowManga authors` and a pages endpoint with one page. -/
def snowEnv (authors : List Author) : Env :=
  { Env.passing with
    UnmarshalMangaSingle := fun _ => .ok (snowManga authors),
    UnmarshalPages := fun _ => .ok ["https://f01.mrcdn.info/file/mrfiles/p1.webp"] }

/-- A catalog fixture: the latest feed lists `m1` and `zz`, the related-series list likewise;
the meta endpoint holds the mangas `m0` (no author IDs) and `m1` (author `a2`) and the one
author `a2`. -/
def catalogEnv : Env :=
  { Env.passing with
    UnmarshalMangas := fun _ => .ok [Manga.stub "m1" [], Manga.stub "zz" []],
    UnmarshalIDStructs := fun _ => .ok [⟨"m1"⟩, ⟨"zz"⟩],
    UnmarshalMangaMap := fun _ =>
      .ok ⟨[("m0", Manga.stub "m0" []), ("m1", Manga.stub "m1" ["a2"])], by decide⟩,
    UnmarshalAuthorMap := fun _ =>
      .ok ⟨[("a2", Author.stub "a2" "Nitori Sasami")], by decide⟩ }

/-- A fixture whose latest feed lists `m1` while the meta endpoint holds no record. -/
def emptyMetaEnv : Env :=
  { noAuthorEnv with UnmarshalMangas := fun _ => .ok [Manga.stub "m1" ["a1"]] }

/-- The request that `mangasByIDs` and `authorsByIDs` send for `ids`. -/
def metaRequest (ids : List String) : Request :=
  ⟨"POST", "https://api.mangarockhd.com/meta", [], some (.ids ids)⟩

/-! ## Lemmas on the loops -/

theorem collectMangas_eq_filterMap (mangaMap : GoMap Manga) (ids : List String) :
    collectMangas mangaMap ids = ids.filterMap mangaMap.get? := by
  have key : ∀ (l : List String) (acc : List Manga),
      l.foldl
        (fun mangas id =>
          match mangaMap.get? id with
          | some manga => mangas ++ [manga]
          | none => mangas)
        acc = acc ++ l.filterMap mangaMap.get? := by
    intro l
    induction l with
    | nil => intro acc; simp
    | cons id rest ih =>
      intro acc
      cases h : mangaMap.get? id with
      | none => simp [List.filterMap_cons, h, ih]
      | some manga => simp [List.filterMap_cons, h, ih]
  simpa [collectMangas] using key ids []

theorem collectAuthors_eq_map (authorMap : GoMap Author) :
    collectAuthors authorMap = authorMap.entries.map Prod.snd := by
  have key : ∀ (l : List (String × Author)) (acc : List Author),
      l.foldl (fun authors e => authors ++ [e.2]) acc = acc ++ l.map Prod.snd := by
    intro l
    induction l with
    | nil => intro acc; simp
    | cons e rest ih => intro acc; simp [ih]
  simpa [collectAuthors] using key authorMap.entries []

/-- The outcome of `mangasByIDs` once the meta request and the decoding have succeeded. -/
theorem mangasByIDs_of_decoded (env : Env) (c : Client) (ids : List String) (log log1 : Log)
    (res : RawMessage) (mangaMap : GoMap Manga)
    (hpost : c.post env "https://api.mangarockhd.com/meta" (.ids ids) log = (.ok res, log1))
    (hdec : env.UnmarshalMangaMap res = .ok mangaMap) :
    c.mangasByIDs env ids log = (.ok (ids.filterMap mangaMap.get?), log1) := by
  simp [Client.mangasByIDs, hpost, hdec, collectMangas_eq_filterMap]

/-- The outcome of `authorsByIDs` once the meta request and the decoding have succeeded. -/
theorem authorsByIDs_of_decoded (env : Env) (c : Client) (ids : List String) (log log1 : Log)
    (res : RawMessage) (authorMap : GoMap Author)
    (hpost : c.post env "https://api.mangarockhd.com/meta" (.ids ids) log = (.ok res, log1))
    (hdec : env.UnmarshalAuthorMap res = .ok authorMap) :
    c.authorsByIDs env ids log = (.ok (authorMap.entries.map Prod.snd), log1) := by
  simp [Client.authorsByIDs, hpost, hdec, collectAuthors_eq_map]

/-! ## Transport -/

/-- C7: for `get`, when the GET request is created and sent and the response body decodes as
an envelope `{code, data}`, and likewise for `post` with its POST request (each under its own
conditions only): the call returns an error exactly when `code` is non-zero, that error
carries the code (`get response code <code>`), and when `code` is 0 it returns the envelope's
`data` unchanged; either way exactly the one request has been sent. -/
theorem get_post_envelope (env : Env) (c : Client) (url : String) (log : Log) :
    (∀ (query : Values) (raw : String) (resp : response),
      env.NewRequest "GET" url = .ok () →
      c.client.Do log ⟨"GET", url, query, none⟩ = .ok raw →
      env.DecodeResponse raw = .ok resp →
      ((∃ f, (c.get env url query log).1 = .error f) ↔ resp.Code ≠ 0) ∧
        (resp.Code ≠ 0 → c.get env url query log =
          (.error (.error ("get response code " ++ toString resp.Code)),
            log ++ [⟨"GET", url, query, none⟩])) ∧
        (resp.Code = 0 → c.get env url query log =
          (.ok resp.Data, log ++ [⟨"GET", url, query, none⟩]))) ∧
    (∀ (body : Body) (raw : String) (resp : response),
      env.NewRequest "POST" url = .ok () →
      c.client.Do log ⟨"POST", url, [], some body⟩ = .ok raw →
      env.DecodeResponse raw = .ok resp →
      ((∃ f, (c.post env url body log).1 = .error f) ↔ resp.Code ≠ 0) ∧
        (resp.Code ≠ 0 → c.post env url body log =
          (.error (.error ("get response code " ++ toString resp.Code)),
            log ++ [⟨"POST", url, [], some body⟩])) ∧
        (resp.Code = 0 → c.post env url body log =
          (.ok resp.Data, log ++ [⟨"POST", url, [], some body⟩]))) := by
  constructor
  · intro query raw resp hnew hdo hdec
    by_cases hc : resp.Code = 0 <;> simp [Client.get, hnew, hdo, hdec, hc]
  · intro body raw resp hnew hdo hdec
    by_cases hc : resp.Code = 0 <;> simp [Client.post, hnew, hdo, hdec, hc]

/-- Witness for C7: where no POST request can be created, `get` on a body with envelope code 7
returns the error carrying 7 and on a body with code 0 the payload; where no GET request can
be created, `post` does the same. -/
theorem get_post_envelope_witness :
    ((Client.constant "no").get getOnlyEnv "u" [] [] =
        (.error (.error "get response code 7"), [⟨"GET", "u", [], none⟩]) ∧
      (Client.constant "ok").get getOnlyEnv "u" [] [] =
        (.ok "payload", [⟨"GET", "u", [], none⟩])) ∧
    ((Client.constant "no").post postOnlyEnv "u" .null [] =
        (.error (.error "get response code 7"), [⟨"POST", "u", [], some .null⟩]) ∧
      (Client.constant "ok").post postOnlyEnv "u" .null [] =
        (.ok "payload", [⟨"POST", "u", [], some .null⟩])) :=
  ⟨⟨((get_post_envelope getOnlyEnv (Client.constant "no") "u" []).1 [] "no" ⟨7, "payload"⟩
        rfl rfl rfl).2.1 (by decide),
    ((get_post_envelope getOnlyEnv (Client.constant "ok") "u" []).1 [] "ok" ⟨0, "payload"⟩
        rfl rfl rfl).2.2 rfl⟩,
   ⟨((get_post_envelope postOnlyEnv (Client.constant "no") "u" []).2 .null "no" ⟨7, "payload"⟩
        rfl rfl rfl).2.1 (by decide),
    ((get_post_envelope postOnlyEnv (Client.constant "ok") "u" []).2 .null "ok" ⟨0, "payload"⟩
        rfl rfl rfl).2.2 rfl⟩⟩

/-- A successful `post` has sent exactly one request. -/
theorem post_ok_log (env : Env) (c : Client) (url : String) (body : Body) (log log1 : Log)
    (res : RawMessage) (h : c.post env url body log = (.ok res, log1)) :
    log1 = log ++ [⟨"POST", url, [], some body⟩] := by
  unfold Client.post at h
  split at h
  · simp at h
  · simp only at h
    split at h
    · simp at h
    · split at h
      · simp at h
      · split at h
        · simp at h
        · simp at h
          exact h.2.symm

/-! ## Entity joiner -/

/-- C1, as it stands, fails: the meta mapping files a manga with id `"b"` under the key
`"a"`; `mangasByIDs(["a"])` returns that manga, whose id is absent from the input. -/
theorem mangasByIDs_foreign_id :
    ((Client.constant "m").mangasByIDs misfiledEnv ["a"] []).1 = .ok [Manga.stub "b" []] ∧
      (Manga.stub "b" []).ID ∉ ["a"] :=
  ⟨rfl, by decide⟩

/-- C1 (amended): once the meta request has succeeded and its data has decoded as a mapping,
`mangasByIDs(ids)` returns exactly the records filed under those ids that the mapping holds,
in the order of `ids`; the output is no longer than `ids`; every returned manga is the record
of an id of `ids`; and when every record of the mapping carries the id it is filed under, the
ids of the returned mangas form a subsequence of `ids`, so none of them is absent from `ids`. -/
theorem mangasByIDs_ordered (env : Env) (c : Client) (ids : List String) (log log1 : Log)
    (res : RawMessage) (mangaMap : GoMap Manga)
    (hpost : c.post env "https://api.mangarockhd.com/meta" (.ids ids) log = (.ok res, log1))
    (hdec : env.UnmarshalMangaMap res = .ok mangaMap) :
    ∃ out, c.mangasByIDs env ids log = (.ok out, log1) ∧
      out = ids.filterMap mangaMap.get? ∧
      out.length ≤ ids.length ∧
      (∀ m ∈ out, ∃ id ∈ ids, mangaMap.get? id = some m) ∧
      ((∀ k m, mangaMap.get? k = some m → m.ID = k) →
        (out.map fun m => m.ID).Sublist ids ∧ ∀ m ∈ out, m.ID ∈ ids) := by
  refine ⟨ids.filterMap mangaMap.get?, mangasByIDs_of_decoded env c ids log log1 res mangaMap
    hpost hdec, rfl, List.length_filterMap_le _ _, ?_, ?_⟩
  · intro m hm
    obtain ⟨id, hid, hget⟩ := List.mem_filterMap.1 hm
    exact ⟨id, hid, hget⟩
  · intro hkey
    have hsub : ((ids.filterMap mangaMap.get?).map fun m => m.ID).Sublist ids := by
      clear hpost
      induction ids with
      | nil => simp
      | cons id rest ih =>
        cases hget : mangaMap.get? id with
        | none =>
          rw [List.filterMap_cons_none hget]
          exact ih.trans (List.sublist_cons_self id rest)
        | some m =>
          rw [List.filterMap_cons_some hget, List.map_cons, hkey id m hget]
          exact ih.cons₂ id
    refine ⟨hsub, ?_⟩
    intro m hm
    exact hsub.subset (List.mem_map_of_mem (fun m => m.ID) hm)

/-- Witness for C1 (amended): the ids `c, x, a` against a mapping that holds `a` and `c`, each
under its own id; the mangas `c, a` come back and their ids are among the input ids. -/
theorem mangasByIDs_ordered_witness :
    ∃ out, (Client.constant "m").mangasByIDs keyedEnv ["c", "x", "a"] [] =
        (.ok out, [metaRequest ["c", "x", "a"]]) ∧
      out = [Manga.stub "c" [], Manga.stub "a" []] ∧
      ∀ m ∈ out, m.ID ∈ ["c", "x", "a"] :=
  match mangasByIDs_ordered keyedEnv (Client.constant "m") ["c", "x", "a"] [] _ "m"
      ⟨[("a", Manga.stub "a" []), ("c", Manga.stub "c" [])], by decide⟩ rfl rfl with
  | ⟨out, hrun, hout, _, _, hkeyed⟩ =>
    ⟨out, hrun, hout.trans (by decide),
      (hkeyed (by
        intro k m hget
        by_cases ha : k = "a"
        · subst ha
          exact (Option.some.inj hget) ▸ rfl
        · by_cases hc : k = "c"
          · subst hc
            exact (Option.some.inj hget) ▸ rfl
          · have ha' : ¬ "a" = k := fun h => ha h.symm
            have hc' : ¬ "c" = k := fun h => hc h.symm
            simp [GoMap.get?, List.find?, ha', hc'] at hget)).2⟩

/-! ## Client facade: `Author` on an absent id -/

/-- C3, as it stands, fails: the author mapping returned for `"x"` has no entry for `"x"` but
one for `"other"`; `Author("x")` does not fail, it goes on to send the related-series request
and the manga lookup and returns the author `"other"`. -/
theorem Author_foreign_entry :
    ∃ authorMap, otherAuthorEnv.UnmarshalAuthorMap "m" = .ok authorMap ∧
      authorMap.get? "x" = none ∧
      (Client.constant "m").Author otherAuthorEnv "x" [] =
        (.ok (Author.stub "other" "Other", []),
          [⟨"POST", "https://api.mangarockhd.com/meta", [], some (.ids ["x"])⟩,
           ⟨"GET", "https://api.mangarockhd.com/query/web401/mrs_serie_related_author",
             [("oid", ["x"])], none⟩,
           ⟨"POST", "https://api.mangarockhd.com/meta", [], some (.ids [])⟩]) :=
  ⟨⟨[("other", Author.stub "other" "Other")], by decide⟩, rfl, by decide, rfl⟩

/-- C3 (amended): when the author lookup for `[id]` succeeds and its mapping has no entry for
`id` and no entry for an id that was not asked for (so it is empty), `Author(id)` fails with
the not-found error, and the meta request of the author lookup is the only request sent:
neither the related-series request nor a manga lookup follows. -/
theorem Author_absent (env : Env) (c : Client) (id : String) (log log1 : Log)
    (res : RawMessage) (authorMap : GoMap Author)
    (hpost : c.post env "https://api.mangarockhd.com/meta" (.ids [id]) log = (.ok res, log1))
    (hdec : env.UnmarshalAuthorMap res = .ok authorMap)
    (habsent : authorMap.get? id = none)
    (hkeys : ∀ e ∈ authorMap.entries, e.1 ∈ [id]) :
    c.Author env id log =
        (.error (.error ("author with id " ++ id ++ " not found")),
          log ++ [⟨"POST", "https://api.mangarockhd.com/meta", [], some (.ids [id])⟩]) := by
  have hempty : authorMap.entries = [] := by
    apply List.eq_nil_iff_forall_not_mem.2
    intro e he
    have h1 : e.1 = id := by simpa using hkeys e he
    have h2 : authorMap.entries.find? (fun e => e.1 = id) = none := by
      simpa [GoMap.get?] using habsent
    have h3 := List.find?_eq_none.1 h2 e he
    simp [h1] at h3
  have hlog := post_ok_log env c _ _ log log1 res hpost
  have hrun := authorsByIDs_of_decoded env c [id] log log1 res authorMap hpost hdec
  simp [Client.Author, hrun, hempty, hlog]

/-- Witness for C3 (amended): the meta endpoint knows no author. -/
theorem Author_absent_witness :
    (Client.constant "m").Author noAuthorEnv "x" [] =
      (.error (.error "author with id x not found"),
        [⟨"POST", "https://api.mangarockhd.com/meta", [], some (.ids ["x"])⟩]) :=
  Author_absent noAuthorEnv (Client.constant "m") "x" [] _ "m" ⟨[], by decide⟩ rfl rfl rfl
    (by decide)

/-! ## Client facade: `Manga` and `Chapter` -/

/-- C6: once the info request has succeeded and its data has decoded as a single-manga
record, `Manga(id)` returns the decoded record with `Author` set to the first entry of
`Authors` and nothing else changed when `Authors` is non-empty, and panics with an index
out of range (index 0, length 0) instead of returning when `Authors` is empty. -/
theorem Manga_first_author (env : Env) (c : Client) (id : String) (log log1 : Log)
    (res : RawMessage) (manga : MangaSingle)
    (hpost : c.post env (c.base ++ "/info?oid=" ++ id) .null log = (.ok res, log1))
    (hdec : env.UnmarshalMangaSingle res = .ok manga) :
    (∀ first rest, manga.Authors = first :: rest →
        c.Manga env id log = (.ok { manga with Author := first }, log1)) ∧
      (manga.Authors = [] →
        c.Manga env id log =
          (.error (.panic "runtime error: index out of range [0] with length 0"), log1)) := by
  constructor
  · intro first rest hauthors
    simp [Client.Manga, hpost, hdec, hauthors]
  · intro hauthors
    simp [Client.Manga, hpost, hdec, hauthors]

/-- Witness for C6: with one decoded author the record comes back with that author as primary
author; with none the call panics. -/
theorem Manga_first_author_witness :
    ((Client.constant "m").Manga (snowEnv [Author.stub "a1" "Nitori Sasami"])
        "mrs-serie-100177863" []).1 =
        .ok { snowManga [Author.stub "a1" "Nitori Sasami"] with
              Author := Author.stub "a1" "Nitori Sasami" } ∧
      ((Client.constant "m").Manga (snowEnv []) "mrs-serie-100177863" []).1 =
        .error (.panic "runtime error: index out of range [0] with length 0") :=
  ⟨congrArg Prod.fst
      ((Manga_first_author (snowEnv [Author.stub "a1" "Nitori Sasami"]) (Client.constant "m")
        "mrs-serie-100177863" [] _ "m" (snowManga [Author.stub "a1" "Nitori Sasami"])
        rfl rfl).1 (Author.stub "a1" "Nitori Sasami") [] rfl),
   congrArg Prod.fst
      ((Manga_first_author (snowEnv []) (Client.constant "m")
        "mrs-serie-100177863" [] _ "m" (snowManga []) rfl rfl).2 rfl)⟩

theorem scanChapters_skip (cid : String) (pages : List String) (pre rest : List Chapter)
    (hpre : ∀ x ∈ pre, x.ID ≠ cid) :
    scanChapters cid pages (pre ++ rest) = scanChapters cid pages rest := by
  induction pre with
  | nil => rfl
  | cons x pre ih =>
    have hx : x.ID ≠ cid := hpre x (List.mem_cons_self x pre)
    have hrest : ∀ y ∈ pre, y.ID ≠ cid := fun y hy => hpre y (List.mem_cons_of_mem x hy)
    simp [scanChapters, hx, ih hrest]

theorem scanChapters_absent (cid : String) (pages : List String) (chapters : List Chapter)
    (habsent : ∀ x ∈ chapters, x.ID ≠ cid) :
    scanChapters cid pages chapters = .error (.error "chapter not found") := by
  have h := scanChapters_skip cid pages chapters [] habsent
  simpa [scanChapters] using h

/-- C2: when `Manga(mangaID)` and the pages request both succeed, `Chapter` returns the first
chapter of the manga's chapter list whose id is `chapterID`, with `Pages` equal to the fetched
page list and its other fields as in the chapter list; when no chapter of the list has that
id it fails with the error `chapter not found`. -/
theorem Chapter_found_or_not (env : Env) (c : Client) (id cid : String)
    (log log1 log2 : Log) (manga : MangaSingle) (res : RawMessage) (pages : List String)
    (hmanga : c.Manga env id log = (.ok manga, log1))
    (hpost : c.post env (c.base ++ "/pages?oid=" ++ cid) .null log1 = (.ok res, log2))
    (hdec : env.UnmarshalPages res = .ok pages) :
    (∀ pre chapter rest, manga.Chapters = pre ++ chapter :: rest →
        (∀ x ∈ pre, x.ID ≠ cid) → chapter.ID = cid →
        c.Chapter env id cid log =
          (.ok ⟨chapter.ID, chapter.Name, chapter.Order, pages⟩, log2)) ∧
      ((∀ x ∈ manga.Chapters, x.ID ≠ cid) →
        c.Chapter env id cid log = (.error (.error "chapter not found"), log2)) := by
  constructor
  · intro pre chapter rest hsplit hpre hid
    simp [Client.Chapter, hmanga, hpost, hdec, hsplit, scanChapters_skip cid pages pre _ hpre,
      scanChapters, hid]
  · intro habsent
    simp [Client.Chapter, hmanga, hpost, hdec, scanChapters_absent cid pages _ habsent]

/-- Witness for C2: the fixture's chapter `mrs-chapter-100177864` is found at its first
occurrence and gets the one fetched page; the id `mrs-chapter-1` is not found. -/
theorem Chapter_found_or_not_witness :
    ((Client.constant "m").Chapter (snowEnv [Author.stub "a1" "Nitori Sasami"])
        "mrs-serie-100177863" "mrs-chapter-100177864" []).1 =
        .ok ⟨"mrs-chapter-100177864", "Chapter 1: Snow", 1,
          ["https://f01.mrcdn.info/file/mrfiles/p1.webp"]⟩ ∧
      ((Client.constant "m").Chapter (snowEnv [Author.stub "a1" "Nitori Sasami"])
        "mrs-serie-100177863" "mrs-chapter-1" []).1 = .error (.error "chapter not found") :=
  ⟨congrArg Prod.fst
      ((Chapter_found_or_not (snowEnv [Author.stub "a1" "Nitori Sasami"]) (Client.constant "m")
        "mrs-serie-100177863" "mrs-chapter-100177864" [] _ _ _ "m" _ rfl rfl rfl).1
        [⟨"mrs-chapter-100177860", "Chapter 0", 0, []⟩]
        ⟨"mrs-chapter-100177864", "Chapter 1: Snow", 1, []⟩
        [⟨"mrs-chapter-100177864", "Chapter 1: Snow (v2)", 2, []⟩] rfl (by decide) rfl),
   congrArg Prod.fst
      ((Chapter_found_or_not (snowEnv [Author.stub "a1" "Nitori Sasami"]) (Client.constant "m")
        "mrs-serie-100177863" "mrs-chapter-1" [] _ _ _ "m" _ rfl rfl rfl).2 (by decide))⟩

/-! ## `addAuthors` -/

theorem foldl_index_eq (authorMap : IndexMap Author) (ids : List String) (acc : List Author) :
    ids.foldl (fun authors id => authors ++ [authorMap.index id]) acc =
      acc ++ ids.map authorMap.index := by
  induction ids generalizing acc with
  | nil => simp
  | cons id rest ih => simp [ih]

theorem joinAuthors_nil (authorMap : IndexMap Author) (manga : Manga)
    (h : joinedAuthors authorMap manga = []) :
    joinAuthors authorMap manga = { manga with Authors := [] } := by
  unfold joinedAuthors at h
  simp [joinAuthors, foldl_index_eq, h]

theorem joinAuthors_cons (authorMap : IndexMap Author) (manga : Manga) (first : Author)
    (rest : List Author) (h : joinedAuthors authorMap manga = first :: rest) :
    joinAuthors authorMap manga = { manga with Authors := first :: rest, Author := first } := by
  unfold joinedAuthors at h
  simp [joinAuthors, foldl_index_eq, h]

theorem joinAuthors_Authors (authorMap : IndexMap Author) (manga : Manga) :
    (joinAuthors authorMap manga).Authors = joinedAuthors authorMap manga := by
  cases h : joinedAuthors authorMap manga with
  | nil => rw [joinAuthors_nil authorMap manga h]
  | cons first rest => rw [joinAuthors_cons authorMap manga first rest h]

theorem joinAuthors_AuthorIDs (authorMap : IndexMap Author) (manga : Manga) :
    (joinAuthors authorMap manga).AuthorIDs = manga.AuthorIDs := by
  cases h : joinedAuthors authorMap manga with
  | nil => rw [joinAuthors_nil authorMap manga h]
  | cons first rest => rw [joinAuthors_cons authorMap manga first rest h]

/-- A manga without author IDs and without authors passes through the join unchanged. -/
theorem joinAuthors_of_no_ids (authorMap : IndexMap Author) (manga : Manga)
    (hids : manga.AuthorIDs = []) (hauthors : manga.Authors = []) :
    joinAuthors authorMap manga = manga := by
  have h : joinedAuthors authorMap manga = [] := by simp [joinedAuthors, hids, hauthors]
  rw [joinAuthors_nil authorMap manga h, ← hauthors]

/-- The join appends one author per author ID, whether the map holds the ID or not. -/
theorem joinAuthors_length (authorMap : IndexMap Author) (manga : Manga) :
    (joinAuthors authorMap manga).Authors.length =
      manga.Authors.length + manga.AuthorIDs.length := by
  simp [joinAuthors_Authors, joinedAuthors]

/-- The join leaves the author IDs alone, so a second `addAuthors` asks for the same IDs. -/
theorem authorIDs_map_joinAuthors (authorMap : IndexMap Author) (mangas : List Manga) :
    authorIDs (mangas.map (joinAuthors authorMap)) = authorIDs mangas := by
  simp [authorIDs, List.foldl_map, joinAuthors_AuthorIDs]

/-- The outcome of `addAuthors` once the author lookup has succeeded. -/
theorem addAuthors_of_lookup (env : Env) (c : Client) (mangas : List Manga) (log log1 : Log)
    (authors : List Author)
    (hlookup : c.authorsByIDs env (authorIDs mangas) log = (.ok authors, log1)) :
    c.addAuthors env mangas log =
      (.ok (mangas.map (joinAuthors (buildAuthorMap authors))), log1) := by
  simp [Client.addAuthors, hlookup]

theorem buildAuthorMap_append (authors : List Author) (author : Author) :
    buildAuthorMap (authors ++ [author]) = (buildAuthorMap authors).set author.ID author := by
  simp [buildAuthorMap, List.foldl_append]

/-- An author found under `k` in the lookup map has the id `k` and was returned by the
author lookup. -/
theorem buildAuthorMap_some (authors : List Author) (k : String) (a : Author)
    (h : buildAuthorMap authors k = some a) : a.ID = k ∧ a ∈ authors := by
  induction authors using List.reverseRecOn with
  | nil => simp [buildAuthorMap, IndexMap.empty] at h
  | append_singleton rest author ih =>
    rw [buildAuthorMap_append] at h
    unfold IndexMap.set at h
    by_cases hk : k = author.ID
    · simp [hk] at h
      subst h
      exact ⟨hk.symm, by simp⟩
    · simp [hk] at h
      obtain ⟨h1, h2⟩ := ih h
      exact ⟨h1, by simp [h2]⟩

/-- Every id of a returned author is a key of the lookup map. -/
theorem buildAuthorMap_isSome (authors : List Author) (k : String)
    (h : ∃ a ∈ authors, a.ID = k) : ∃ a, buildAuthorMap authors k = some a := by
  induction authors using List.reverseRecOn with
  | nil => simp at h
  | append_singleton rest author ih =>
    rw [buildAuthorMap_append]
    unfold IndexMap.set
    by_cases hk : k = author.ID
    · exact ⟨author, by simp [hk]⟩
    · obtain ⟨a, ha, hid⟩ := h
      have hrest : a ∈ rest := by
        rcases List.mem_append.1 ha with h1 | h1
        · exact h1
        · simp at h1
          exact absurd (h1 ▸ hid).symm hk
      obtain ⟨b, hb⟩ := ih ⟨a, hrest, hid⟩
      exact ⟨b, by simp [hk, hb]⟩

/-- C8: when the author lookup of `addAuthors` succeeds, a manga of the list with no author
IDs, an empty author list and an unset primary author comes out of `addAuthors` unchanged, so
its author list is still empty and its primary author still unset; and whenever the author
lookup of a second `addAuthors` on the result succeeds, that manga is again the same. -/
theorem addAuthors_no_author_ids (env : Env) (c : Client) (mangas : List Manga)
    (log log1 : Log) (authors : List Author) (i : Nat) (m : Manga)
    (hlookup : c.authorsByIDs env (authorIDs mangas) log = (.ok authors, log1))
    (hi : mangas[i]? = some m) (hids : m.AuthorIDs = []) (hauthors : m.Authors = [])
    (hprimary : m.Author = Author.zero) :
    ∃ out, c.addAuthors env mangas log = (.ok out, log1) ∧
      (∃ m', out[i]? = some m' ∧ m' = m ∧ m'.Authors = [] ∧ m'.Author = Author.zero) ∧
      ∀ log2 log3 authors2,
        c.authorsByIDs env (authorIDs out) log2 = (.ok authors2, log3) →
        ∃ out2, c.addAuthors env out log2 = (.ok out2, log3) ∧ out2[i]? = some m := by
  refine ⟨_, addAuthors_of_lookup env c mangas log log1 authors hlookup, ?_, ?_⟩
  · exact ⟨m, by simp [List.getElem?_map, hi, joinAuthors_of_no_ids _ m hids hauthors], rfl,
      hauthors, hprimary⟩
  · intro log2 log3 authors2 hlookup2
    refine ⟨_, addAuthors_of_lookup env c _ log2 log3 authors2 hlookup2, ?_⟩
    simp [List.getElem?_map, hi, joinAuthors_of_no_ids _ m hids hauthors]

/-- Witness for C8: the list `m0, m1` where `m0` has no author IDs; `addAuthors` twice leaves
`m0` at index 0 both times. -/
theorem addAuthors_no_author_ids_witness :
    ∃ out, (Client.constant "m").addAuthors catalogEnv
        [Manga.stub "m0" [], Manga.stub "m1" ["a2"]] [] = (.ok out, [metaRequest ["a2"]]) ∧
      out[0]? = some (Manga.stub "m0" []) ∧
      ∃ out2, (Client.constant "m").addAuthors catalogEnv out [metaRequest ["a2"]] =
          (.ok out2, [metaRequest ["a2"], metaRequest ["a2"]]) ∧
        out2[0]? = some (Manga.stub "m0" []) :=
  match addAuthors_no_author_ids catalogEnv (Client.constant "m")
      [Manga.stub "m0" [], Manga.stub "m1" ["a2"]] [] [metaRequest ["a2"]]
      [Author.stub "a2" "Nitori Sasami"] 0 (Manga.stub "m0" []) rfl rfl rfl rfl rfl with
  | ⟨out, hrun, ⟨m', hget, hsame, _⟩, hagain⟩ =>
    have hout : out = [Manga.stub "m0" [], Manga.stub "m1" ["a2"]].map
        (joinAuthors (buildAuthorMap [Author.stub "a2" "Nitori Sasami"])) := by
      have h := hrun.symm.trans (addAuthors_of_lookup catalogEnv (Client.constant "m")
        [Manga.stub "m0" [], Manga.stub "m1" ["a2"]] [] [metaRequest ["a2"]]
        [Author.stub "a2" "Nitori Sasami"] rfl)
      simpa using h
    ⟨out, hrun, hsame ▸ hget,
      hagain [metaRequest ["a2"]] [metaRequest ["a2"], metaRequest ["a2"]]
        [Author.stub "a2" "Nitori Sasami"] (by rw [hout]; rfl)⟩

/-- C4, evaluated: the manga `m1` names the author ID `a1`, the author lookup succeeds and
resolves no author, so `a1` has no entry in the lookup map; `addAuthors` returns no error and
appends the zero `Author` for `a1`, which also becomes the primary author. -/
theorem addAuthors_placeholder :
    buildAuthorMap [] "a1" = none ∧
      (Client.constant "m").addAuthors noAuthorEnv [Manga.stub "m1" ["a1"]] [] =
        (.ok [{ Manga.stub "m1" ["a1"] with Authors := [Author.zero], Author := Author.zero }],
          [metaRequest ["a1"]]) :=
  ⟨rfl, rfl⟩

/-- C5, evaluated: the manga `m2` names the author IDs `a1, a2`, of which the author lookup
resolves only `a2`; `addAuthors` appends the zero `Author` and then the record of `a2`, and
the primary author is the zero `Author`, not a resolved record. -/
theorem addAuthors_unresolved_first :
    buildAuthorMap [Author.stub "a2" "Nitori Sasami"] "a1" = none ∧
      (Client.constant "m").addAuthors catalogEnv [Manga.stub "m2" ["a1", "a2"]] [] =
        (.ok [{ Manga.stub "m2" ["a1", "a2"] with
                Authors := [Author.zero, Author.stub "a2" "Nitori Sasami"],
                Author := Author.zero }],
          [metaRequest ["a1", "a2"]]) :=
  ⟨rfl, rfl⟩

/-! ## Client facade: `Latest` -/

/-- C9, as it stands, fails: the latest feed lists the manga `m1`, every request succeeds, the
meta endpoint holds no record for `m1`, and `Latest(0)` returns the empty list. -/
theorem Latest_empty_result :
    emptyMetaEnv.UnmarshalMangas "m" = .ok [Manga.stub "m1" ["a1"]] ∧
      (Client.constant "m").Latest emptyMetaEnv 0 [] =
        (.ok [],
          [⟨"GET", "https://api.mangarockhd.com/query/web401/mrs_latest", [], none⟩,
           metaRequest ["m1"], metaRequest []]) :=
  ⟨rfl, rfl⟩

/-- C9 (amended): in a run of `Latest` in which the feed request, the manga lookup and the
author lookup all succeed, at least one id of the feed has a record in the manga mapping, and
every such record either carries a decoded author list whose first author has a non-empty
id, or carries no decoded authors and a first author ID that is non-empty and is the id of an
author returned by the author lookup: the returned list is non-empty and every manga in it has
a non-empty primary-author id. -/
theorem Latest_primary_author (env : Env) (c : Client) (page : Int)
    (log log1 log2 log3 : Log) (res res2 res3 : RawMessage) (feed : List Manga)
    (mangaMap : GoMap Manga) (authorMap : GoMap Author)
    (hget : c.get env (c.base ++ "/mrs_latest") [] log = (.ok res, log1))
    (hfeed : env.UnmarshalMangas res = .ok feed)
    (hmeta : c.post env "https://api.mangarockhd.com/meta"
      (.ids (feed.map fun m => m.ID)) log1 = (.ok res2, log2))
    (hmap : env.UnmarshalMangaMap res2 = .ok mangaMap)
    (hauth : c.post env "https://api.mangarockhd.com/meta"
      (.ids (authorIDs ((feed.map fun m => m.ID).filterMap mangaMap.get?))) log2 =
        (.ok res3, log3))
    (hamap : env.UnmarshalAuthorMap res3 = .ok authorMap)
    (hsome : ∃ m ∈ feed, ∃ r, mangaMap.get? m.ID = some r)
    (hrec : ∀ m ∈ feed, ∀ r, mangaMap.get? m.ID = some r →
      (∃ a rest, r.Authors = a :: rest ∧ a.ID ≠ "") ∨
      (r.Authors = [] ∧ ∃ k rest, r.AuthorIDs = k :: rest ∧ k ≠ "" ∧
        ∃ e ∈ authorMap.entries, e.2.ID = k)) :
    ∃ out, c.Latest env page log = (.ok out, log3) ∧ out ≠ [] ∧
      ∀ m ∈ out, m.Author.ID ≠ "" := by
  have h1 := mangasByIDs_of_decoded env c _ log1 log2 res2 mangaMap hmeta hmap
  have h2 := authorsByIDs_of_decoded env c _ log2 log3 res3 authorMap hauth hamap
  have h3 := addAuthors_of_lookup env c _ log2 log3 _ h2
  refine ⟨((feed.map fun m => m.ID).filterMap mangaMap.get?).map
    (joinAuthors (buildAuthorMap (authorMap.entries.map Prod.snd))),
    by simp only [Client.Latest, hget, hfeed, h1, h3], ?_, ?_⟩
  · obtain ⟨m, hm, r, hr⟩ := hsome
    have hmem : r ∈ (feed.map fun m => m.ID).filterMap mangaMap.get? :=
      List.mem_filterMap.2 ⟨m.ID, List.mem_map_of_mem (fun m => m.ID) hm, hr⟩
    intro hnil
    rw [List.map_eq_nil_iff] at hnil
    rw [hnil] at hmem
    simp at hmem
  · intro out hout
    obtain ⟨r, hr, rfl⟩ := List.mem_map.1 hout
    obtain ⟨id, hid, hget?⟩ := List.mem_filterMap.1 hr
    obtain ⟨m, hm, rfl⟩ := List.mem_map.1 hid
    rcases hrec m hm r hget? with ⟨a, rest, hauthors, ha⟩ | ⟨hauthors, k, rest, hids, hk, e, he, hek⟩
    · have hj : joinedAuthors (buildAuthorMap (authorMap.entries.map Prod.snd)) r =
          a :: (rest ++ r.AuthorIDs.map
            (buildAuthorMap (authorMap.entries.map Prod.snd)).index) := by
        simp [joinedAuthors, hauthors]
      rw [joinAuthors_cons _ r _ _ hj]
      exact ha
    · obtain ⟨b, hb⟩ := buildAuthorMap_isSome (authorMap.entries.map Prod.snd) k
        ⟨e.2, List.mem_map_of_mem Prod.snd he, hek⟩
      have hbk := (buildAuthorMap_some _ k b hb).1
      have hj : joinedAuthors (buildAuthorMap (authorMap.entries.map Prod.snd)) r =
          b :: rest.map (buildAuthorMap (authorMap.entries.map Prod.snd)).index := by
        simp [joinedAuthors, hauthors, hids, IndexMap.index, hb]
      rw [joinAuthors_cons _ r _ _ hj]
      simpa [hbk] using hk

/-- Witness for C9 (amended): the catalog fixture, whose feed lists `m1` (held by the meta
endpoint, author `a2` resolved) and `zz` (not held). -/
theorem Latest_primary_author_witness :
    ∃ out, (Client.constant "m").Latest catalogEnv 0 [] =
        (.ok out,
          [⟨"GET", "https://api.mangarockhd.com/query/web401/mrs_latest", [], none⟩,
           metaRequest ["m1", "zz"], metaRequest ["a2"]]) ∧
      out ≠ [] ∧ ∀ m ∈ out, m.Author.ID ≠ "" :=
  Latest_primary_author catalogEnv (Client.constant "m") 0 [] _ _ _ "m" "m" "m"
    [Manga.stub "m1" [], Manga.stub "zz" []]
    ⟨[("m0", Manga.stub "m0" []), ("m1", Manga.stub "m1" ["a2"])], by decide⟩
    ⟨[("a2", Author.stub "a2" "Nitori Sasami")], by decide⟩
    rfl rfl rfl rfl rfl rfl
    ⟨Manga.stub "m1" [], by decide, Manga.stub "m1" ["a2"], by decide⟩
    (by
      intro m hm r hr
      simp only [List.mem_cons, List.mem_singleton, List.not_mem_nil, or_false] at hm
      rcases hm with rfl | rfl
      · have hr1 : r = Manga.stub "m1" ["a2"] := by
          have : (some (Manga.stub "m1" ["a2"]) : Option Manga) = some r := hr
          exact (Option.some.inj this).symm
        subst hr1
        exact Or.inr ⟨rfl, "a2", [], rfl, by decide,
          ("a2", Author.stub "a2" "Nitori Sasami"), by simp, rfl⟩
      · have hnone : (none : Option Manga) = some r := hr
        cases hnone)

/-! ## Client facade: `Author` -/

theorem mangaIDs_eq_map (mangaIDStructs : List IDStruct) (acc : List String) :
    mangaIDStructs.foldl (fun mangaIDs manga => mangaIDs ++ [manga.ID]) acc =
      acc ++ mangaIDStructs.map fun manga => manga.ID := by
  induction mangaIDStructs generalizing acc with
  | nil => simp
  | cons manga rest ih => simp [ih]

/-- C10: when `Author(id)` succeeds with author `a` and mangas `ms`, then `authorsByIDs([id])`
returned a list whose first record is `a`, the related-series request succeeded and decoded
as a list of ids, `mangasByIDs` on those ids, in that order, returned a list `ms0`, and `ms`
is `ms0` with the primary author of every manga set to `a`; so every manga of `ms` has the
primary author `a`. -/
theorem Author_mangas (env : Env) (c : Client) (id : String) (log logEnd : Log)
    (a : Mangarock.Author) (ms : List Mangarock.Manga)
    (h : c.Author env id log = (.ok (a, ms), logEnd)) :
    ∃ rest log1 res log2 mangaIDStructs ms0,
      c.authorsByIDs env [id] log = (.ok (a :: rest), log1) ∧
      c.get env (c.base ++ "/mrs_serie_related_author") [("oid", [id])] log1 =
        (.ok res, log2) ∧
      env.UnmarshalIDStructs res = .ok mangaIDStructs ∧
      c.mangasByIDs env (mangaIDStructs.map fun manga => manga.ID) log2 = (.ok ms0, logEnd) ∧
      ms = ms0.map (fun manga => { manga with Author := a }) ∧
      ∀ m ∈ ms, m.Author = a := by
  unfold Client.Author at h
  rcases hlookup : c.authorsByIDs env [id] log with ⟨r1, log1⟩
  rw [hlookup] at h
  cases r1 with
  | error f => simp at h
  | ok authors =>
    cases authors with
    | nil => simp at h
    | cons first rest =>
      simp only at h
      rcases hrel : c.get env (c.base ++ "/mrs_serie_related_author") [("oid", [id])] log1
        with ⟨r2, log2⟩
      rw [hrel] at h
      cases r2 with
      | error f => simp at h
      | ok res =>
        simp only at h
        cases hdec : env.UnmarshalIDStructs res with
        | error e => rw [hdec] at h; simp at h
        | ok mangaIDStructs =>
          rw [hdec] at h
          simp only [mangaIDs_eq_map, List.nil_append] at h
          rcases hms : c.mangasByIDs env (mangaIDStructs.map fun manga => manga.ID) log2
            with ⟨r3, log3⟩
          rw [hms] at h
          cases r3 with
          | error f => simp at h
          | ok ms0 =>
            simp only [Prod.mk.injEq, Except.ok.injEq] at h
            obtain ⟨⟨ha, hmsEq⟩, hlog⟩ := h
            subst ha hlog
            refine ⟨rest, log1, res, log2, mangaIDStructs, ms0, rfl, hrel, hdec, hms,
              hmsEq.symm, ?_⟩
            intro m hm
            rw [← hmsEq] at hm
            obtain ⟨m0, _, rfl⟩ := List.mem_map.1 hm
            rfl

/-- Witness for C10: in the catalog fixture `Author("a2")` succeeds with the author `a2` and
the manga `m1` of the related series `m1, zz`, stamped with `a2`. -/
theorem Author_mangas_witness :
    (Client.constant "m").Author catalogEnv "a2" [] =
        (.ok (Author.stub "a2" "Nitori Sasami",
            [{ Manga.stub "m1" ["a2"] with Author := Author.stub "a2" "Nitori Sasami" }]),
          [metaRequest ["a2"],
           ⟨"GET", "https://api.mangarockhd.com/query/web401/mrs_serie_related_author",
             [("oid", ["a2"])], none⟩,
           metaRequest ["m1", "zz"]]) ∧
      ∀ m ∈ [{ Manga.stub "m1" ["a2"] with Author := Author.stub "a2" "Nitori Sasami" }],
        m.Author = Author.stub "a2" "Nitori Sasami" :=
  ⟨rfl,
    match Author_mangas catalogEnv (Client.constant "m") "a2" [] _
        (Author.stub "a2" "Nitori Sasami")
        [{ Manga.stub "m1" ["a2"] with Author := Author.stub "a2" "Nitori Sasami" }] rfl with
    | ⟨_, _, _, _, _, _, _, _, _, _, _, hall⟩ => hall⟩

end Mangarock
